import Mathlib

set_option maxHeartbeats 1000000

/-!
Shallow embedding of `src/stress-mmapfiles.c` (stress-ng "mmapfiles" stressor).

The program walks directory trees, memory-maps every regular file it finds
into a fixed-capacity table of `(addr, len)` slots, then unmaps every live
slot, accumulating six double-precision metric counters.  Doubles are
modelled as `ℚ` (the individual page-count and duration additions are exact
in binary floating point for power-of-two page sizes, and the claims are
about exact values).  Machine `size_t` values are modelled as `ℕ`.

External collaborators (syscalls, clock, settings store, low-memory
heuristic) are modelled as oracles: each regular file carries the outcomes
of its `open`/`fstat`/`mmap` calls, each directory entry carries the value
the cooperative `stress_continue_flag()` check returned at its loop
iteration, and `munmap` outcomes are per-slot oracle functions.
-/

namespace Mmapfiles

/-- Capacity of the mapping table: `#define MMAP_MAX (512 * 1024)`. -/
def MMAP_MAX : Nat := 512 * 1024

/-- Source struct `stress_mapping_t`: one table slot, `void *addr; size_t len;`.
`addr = none` models a NULL pointer. -/
structure stress_mapping_t where
  addr : Option Nat
  len : Nat
deriving DecidableEq

/-- Source struct `stress_mmapfile_info_t`: the six metric accumulators (C doubles,
modelled as `ℚ`). -/
structure stress_mmapfile_info_t where
  mmap_page_count : ℚ
  mmap_count : ℚ
  mmap_duration : ℚ
  munmap_page_count : ℚ
  munmap_count : ℚ
  munmap_duration : ℚ
deriving DecidableEq

/-- Outcome of one `mmap` call: success with an address, failure with
`errno == ENOMEM`, or failure with any other errno. -/
inductive MmapRes where
  | success (addr : Nat)
  | failOther
  | failENOMEM
deriving DecidableEq

/-- True iff the `mmap` call returned something other than `MAP_FAILED`. -/
def MmapRes.isSuccess : MmapRes → Bool
  | .success _ => true
  | _ => false

/-- Oracle model of one regular file as seen through the syscalls the code
performs on it: whether `open` returns a valid fd, whether `fstat`
succeeds, the `st_size` it reports, the outcome of the `mmap` call, and
the wall-clock delta measured around that call. -/
structure RegFile where
  openOk : Bool
  statOk : Bool
  st_size : Nat
  mmapRes : MmapRes
  mmap_delta : ℚ

/-- Ambient environment: `args->page_size`, the
`g_opt_flags & OPT_FLAGS_OOM_AVOID` bit, and the injected
`stress_low_memory` predicate. -/
structure Env where
  page_size : Nat
  oom_avoid : Bool
  low_memory : Nat → Bool

/-- State threaded through one traversal pass: the mapping table (the
calloc'd array, modelled as a total function), `n_mappings`, the shared
metrics block, the external bogo-op counter, the per-pass `enomem` flag,
and a ghost trace of the `mmap` attempts made (in order), used to state
claims about "the first mapping attempt". -/
structure DirSt where
  mappings : Nat → stress_mapping_t
  n_mappings : Nat
  info : stress_mmapfile_info_t
  bogo : Nat
  enomem : Bool
  attempts : List MmapRes

/-- Control signal of one loop-body iteration: fall through to the next
`readdir` entry, or `break` out of the current directory's listing. -/
inductive LoopSig where
  | next
  | brk
deriving DecidableEq

/-- Core helper `stress_is_dot_filename`: true exactly for "." and "..". -/
def stress_is_dot_filename (s : String) : Bool := s = "." || s = ".."

/-- The amount the code adds per mapped/unmapped file:
`(double)(len + page_size - 1) / page_size` (the cast binds before `/`,
so this is real division of the integer `len + page_size - 1` by
`page_size`). -/
def page_count_expr (env : Env) (len : Nat) : ℚ :=
  ((len + env.page_size - 1 : ℕ) : ℚ) / (env.page_size : ℚ)

/-- The `DT_REG` branch of `stress_mmapfiles_dir` (source lines 106-156):
open, fstat, low-memory check, timed mmap, and on success the table
append, metric updates and bogo increment.  The `MAP_POPULATE` touch loop
only reads the mapped pages (`stress_uint8_put` is a sink), so it has no
effect on the modelled state.  `close(fd)` likewise has no modelled
effect. -/
def stress_mmapfiles_reg (env : Env) (f : RegFile) (st : DirSt) :
    DirSt × LoopSig :=
  if f.openOk = false then (st, .next)
  else if f.statOk = false then (st, .next)
  else if env.oom_avoid && env.low_memory f.st_size then (st, .brk)
  else
    let st0 := { st with attempts := st.attempts ++ [f.mmapRes] }
    match f.mmapRes with
    | .success a =>
        ({ st0 with
            mappings := Function.update st0.mappings st0.n_mappings
              ⟨some a, f.st_size⟩
            n_mappings := st0.n_mappings + 1
            info := { st0.info with
              mmap_count := st0.info.mmap_count + 1
              mmap_duration := st0.info.mmap_duration + f.mmap_delta
              mmap_page_count :=
                st0.info.mmap_page_count + page_count_expr env f.st_size }
            bogo := st0.bogo + 1 }, .next)
    | .failOther => (st0, .next)
    | .failENOMEM => ({ st0 with enomem := true }, .brk)

/-- The state after the success branch of the `DT_REG` handler: slot
`n_mappings` written, count incremented, the three mmap accumulators and
the bogo counter bumped, the attempt recorded. -/
def reg_success_state (env : Env) (f : RegFile) (st : DirSt) (a : Nat) :
    DirSt :=
  { mappings := Function.update st.mappings st.n_mappings
      ⟨some a, f.st_size⟩
    n_mappings := st.n_mappings + 1
    info := { mmap_page_count :=
                st.info.mmap_page_count + page_count_expr env f.st_size
              mmap_count := st.info.mmap_count + 1
              mmap_duration := st.info.mmap_duration + f.mmap_delta
              munmap_page_count := st.info.munmap_page_count
              munmap_count := st.info.munmap_count
              munmap_duration := st.info.munmap_duration }
    bogo := st.bogo + 1
    enomem := st.enomem
    attempts := st.attempts ++ [MmapRes.success a] }

mutual
/-- One `readdir` entry.  Every entry carries the value the
`stress_continue_flag()` check returned at its loop iteration (an oracle
for the cooperative cancellation signal) and its `d_name`.  A `dir` entry
carries the outcome of the `opendir` on it and its listing; a `reg` entry
carries its `RegFile` oracle. -/
inductive Dirent : Type where
  | dir (cont : Bool) (nm : String) (openOk : Bool) (sub : DirList)
  | reg (cont : Bool) (nm : String) (f : RegFile)
  | other (cont : Bool) (nm : String)

/-- A directory listing, in `readdir` order. -/
inductive DirList : Type where
  | nil
  | cons (e : Dirent) (l : DirList)
end

/-- The `stress_continue_flag()` oracle value attached to an entry. -/
def Dirent.contFlag : Dirent → Bool
  | .dir c _ _ _ => c
  | .reg c _ _ => c
  | .other c _ => c

/-- The entry's `d_name`. -/
def Dirent.dname : Dirent → String
  | .dir _ nm _ _ => nm
  | .reg _ nm _ => nm
  | .other _ nm => nm

mutual
/-- Dispatch on `d_type` (source lines 100-156): descend into a
subdirectory (`opendir` failure silently skips the subtree), process a
regular file, ignore any other entry type.  The unused `pop`/`sh`
parameters mirror the C signature (`mmap_populate`, `mmap_shared`); they
only shape the `flags` word passed to `mmap`, whose outcome is already
the per-file oracle. -/
def stress_mmapfiles_entry (env : Env) (pop sh : Bool) :
    Dirent → DirSt → DirSt × LoopSig
  | .dir _ _ openOk sub, st =>
      (if openOk then stress_mmapfiles_loop env pop sh sub st else st, .next)
  | .reg _ _ f, st => stress_mmapfiles_reg env f st
  | .other _ _, st => (st, .next)

/-- The `while (!(*enomem) && (d = readdir(dir)))` loop of
`stress_mmapfiles_dir` (source lines 93-157): per iteration it checks the
`enomem` flag, the table capacity, the cooperative continue flag, and the
dot-filename filter, then dispatches on the entry type; a `brk` signal
abandons the rest of the listing. -/
def stress_mmapfiles_loop (env : Env) (pop sh : Bool) :
    DirList → DirSt → DirSt
  | .nil, st => st
  | .cons e l, st =>
      if st.enomem then st
      else if MMAP_MAX ≤ st.n_mappings then st
      else if e.contFlag = false then st
      else if stress_is_dot_filename e.dname then
        stress_mmapfiles_loop env pop sh l st
      else
        match stress_mmapfiles_entry env pop sh e st with
        | (st', .next) => stress_mmapfiles_loop env pop sh l st'
        | (st', .brk) => st'
end

/-- Source function `stress_mmapfiles_dir` (lines 71-160): `opendir` the path
(failure returns the count unchanged) and run the listing loop.  The
directory object stands in for the path argument; listings of
subdirectories are embedded in their entries. -/
def stress_mmapfiles_dir (env : Env) (pop sh : Bool) (openOk : Bool)
    (entries : DirList) (st : DirSt) : DirSt :=
  if openOk then stress_mmapfiles_loop env pop sh entries st else st

/-- The fixed rotation list of root directories (source lines 167-179),
including the `"/etc,"` entry exactly as it appears in the source. -/
def dirs : List String :=
  ["/lib", "/lib32", "/lib64", "/boot", "/bin", "/etc,", "/sbin", "/usr",
   "/var", "/sys", "/proc"]

/-- State of the unmap pass: the table, the metrics block, and a ghost
trace of the `(addr, len)` pairs passed to `munmap`, in call order. -/
structure UnmapSt where
  mappings : Nat → stress_mapping_t
  info : stress_mmapfile_info_t
  attempts : List (Option Nat × Nat)

/-- Per-cycle oracles for the unmap pass: whether the direct `munmap` of
slot `i` returns 0, and the wall-clock delta measured around it. -/
structure CycleOracle where
  munmap_ok : Nat → Bool
  munmap_delta : Nat → ℚ

/-- One iteration of the unmap loop (source lines 209-224): timed
`munmap` of slot `i`; on success accumulate duration, count and the page
expression; on failure call `stress_munmap_retry_enomem` (external,
result discarded by the code, so no modelled effect); in either case
clear the slot.  The attempt is recorded in the ghost trace. -/
def munmap_step (env : Env) (ora : CycleOracle) (st : UnmapSt) (i : Nat) :
    UnmapSt :=
  let len := (st.mappings i).len
  let addr := (st.mappings i).addr
  let info' :=
    if ora.munmap_ok i then
      { st.info with
        munmap_duration := st.info.munmap_duration + ora.munmap_delta i
        munmap_count := st.info.munmap_count + 1
        munmap_page_count :=
          st.info.munmap_page_count + page_count_expr env len }
    else st.info
  { mappings := Function.update st.mappings i ⟨none, 0⟩
    info := info'
    attempts := st.attempts ++ [(addr, len)] }

/-- The `for (i = 0; i < n; i++)` unmap loop, iterating slots
`i, i+1, ..., i+fuel-1` in ascending order. -/
def munmap_from (env : Env) (ora : CycleOracle) :
    Nat → Nat → UnmapSt → UnmapSt
  | _, 0, st => st
  | i, fuel + 1, st => munmap_from env ora (i + 1) fuel (munmap_step env ora st i)

/-- Persistent per-worker state of `stress_mmapfiles_child`: the rotation
cursor `idx`, the mapping table, the shared metrics block and the bogo
counter. -/
structure ChildSt where
  idx : Nat
  mappings : Nat → stress_mapping_t
  info : stress_mmapfile_info_t
  bogo : Nat

/-- Environment of the child: the ambient `Env`, the filesystem (for each
root path, the `opendir` outcome and the listing), and the external
settings store, indexed by the cycle number current when it is read
(`settings k` is the pair `("mmapfiles-populate", "mmapfiles-shared")`
held by the store at the start of cycle `k`; the worker is invoked at the
start of cycle 0). -/
structure ChildEnv where
  env : Env
  fs : String → Bool × DirList
  settings : Nat → Bool × Bool

/-- Visiting one root (the body of the cycle's `for` loop, source lines
198-201): fresh `enomem` flag, then `stress_mmapfiles_dir` on
`dirs[idx]`. -/
def root_step (cenv : ChildEnv) (pop sh : Bool) (idx : Nat) (st : DirSt) :
    DirSt :=
  stress_mmapfiles_dir cenv.env pop sh (cenv.fs (dirs.getD idx "")).1
    (cenv.fs (dirs.getD idx "")).2 { st with enomem := false }

/-- Cursor advance with wrap (source lines 202-204): `idx++;
if (idx >= SIZEOF_ARRAY(dirs)) idx = 0;`. -/
def idx_advance (idx : Nat) : Nat :=
  if dirs.length ≤ idx + 1 then 0 else idx + 1

/-- The `for (n = 0, i = 0; i < SIZEOF_ARRAY(dirs); i++)` traversal loop
of one cycle (source lines 197-207): visit `dirs[idx]` with a fresh
`enomem` flag, advance (and wrap) the rotation cursor after every root,
and break out of the cycle when the root set the flag.  `fuel` is the
remaining number of loop iterations (`SIZEOF_ARRAY(dirs) - i`) and `vis`
is a ghost counter of the roots visited so far. -/
def roots_loop (cenv : ChildEnv) (pop sh : Bool) :
    Nat → Nat → Nat → DirSt → Nat × Nat × DirSt
  | 0, idx, vis, st => (idx, vis, st)
  | fuel + 1, idx, vis, st =>
      let st' := root_step cenv pop sh idx st
      if st'.enomem then (idx_advance idx, vis + 1, st')
      else roots_loop cenv pop sh fuel (idx_advance idx) (vis + 1) st'

/-- The traversal half of one cycle: run the roots loop with `n = 0` over
the worker's table and metrics.  Returns the new cursor, the ghost count
of roots visited, and the traversal-end `DirSt`. -/
def cycle_trav (cenv : ChildEnv) (pop sh : Bool) (st : ChildSt) :
    Nat × Nat × DirSt :=
  roots_loop cenv pop sh dirs.length st.idx 0
    ⟨st.mappings, 0, st.info, st.bogo, false, []⟩

/-- The unmap half of one cycle: unmap slots `0 .. n_mappings - 1` of the
traversal-end state in table order. -/
def cycle_unmap (env : Env) (ora : CycleOracle) (t : DirSt) : UnmapSt :=
  munmap_from env ora 0 t.n_mappings ⟨t.mappings, t.info, []⟩

/-- One full iteration of the `do { ... } while (stress_continue(args))`
loop of `stress_mmapfiles_child` (source lines 194-225): traversal pass
then unmap pass. -/
def stress_mmapfiles_cycle (cenv : ChildEnv) (pop sh : Bool)
    (ora : CycleOracle) (st : ChildSt) : ChildSt :=
  let r := cycle_trav cenv pop sh st
  let u := cycle_unmap cenv.env ora r.2.2
  ⟨r.1, u.mappings, u.info, r.2.2.bogo⟩

/-- The cycle loop, with one `CycleOracle` per executed cycle (the
`stress_continue(args)` check is the external decision of how many cycles
run).  Alongside the state it accumulates a ghost trace of the
`(mmap_populate, mmap_shared)` pair that each cycle passed to the
traversal engine. -/
def child_fold (cenv : ChildEnv) (pop sh : Bool) :
    List CycleOracle → ChildSt × List (Bool × Bool) →
    ChildSt × List (Bool × Bool)
  | [], acc => acc
  | o :: os, acc =>
      child_fold cenv pop sh os
        (stress_mmapfiles_cycle cenv pop sh o acc.1, acc.2 ++ [(pop, sh)])

/-- Source function `stress_mmapfiles_child` (lines 162-231): read the two boolean
settings once, before the first cycle (source lines 183-184), then run
the cycle loop.  Returns the final state and the ghost per-cycle flags
trace. -/
def stress_mmapfiles_child (cenv : ChildEnv) (oras : List CycleOracle)
    (st : ChildSt) : ChildSt × List (Bool × Bool) :=
  child_fold cenv (cenv.settings 0).1 (cenv.settings 0).2 oras (st, [])

/-- Metric 0, `"file mmaps per sec "` (source line 262). -/
def metric_file_mmaps_per_sec (m : stress_mmapfile_info_t) : ℚ :=
  if 0 < m.mmap_duration then m.mmap_count / m.mmap_duration else 0

/-- Metric 1, `"file munmap per sec"` (source line 264). -/
def metric_file_munmap_per_sec (m : stress_mmapfile_info_t) : ℚ :=
  if 0 < m.munmap_duration then m.munmap_count / m.munmap_duration else 0

/-- Metric 2, `"file pages mmap'd per sec"` (source line 267). -/
def metric_file_pages_mmapd_per_sec (m : stress_mmapfile_info_t) : ℚ :=
  if 0 < m.mmap_duration then m.mmap_page_count / m.mmap_duration else 0

/-- Metric 3, `"file pages munmap'd per sec"` (source line 269). -/
def metric_file_pages_munmapd_per_sec (m : stress_mmapfile_info_t) : ℚ :=
  if 0 < m.munmap_duration then m.munmap_page_count / m.munmap_duration else 0

/-- Metric 4, `"pages per mapping"` (source line 271), gated on
`mmap_count` rather than on a duration. -/
def metric_pages_per_mapping (m : stress_mmapfile_info_t) : ℚ :=
  if 0 < m.mmap_count then m.mmap_page_count / m.mmap_count else 0

/-- Number of successful attempts in an attempt trace (each one appends a
table entry and bumps `mmap_count` and the bogo counter). -/
def countSucc : List MmapRes → Nat
  | [] => 0
  | .success _ :: r => countSucc r + 1
  | _ :: r => countSucc r

/-- Whether an attempt trace contains an `ENOMEM` failure. -/
def hasENOMEM : List MmapRes → Bool
  | [] => false
  | .failENOMEM :: _ => true
  | _ :: r => hasENOMEM r

/-- Sum of `page_count_expr` over the slot lengths at indices
`i, i+1, ..., i+n-1` of a table. -/
def pagesFrom (env : Env) (m : Nat → stress_mapping_t) : Nat → Nat → ℚ
  | _, 0 => 0
  | i, n + 1 => page_count_expr env (m i).len + pagesFrom env m (i + 1) n

/-- Relation between a state and the result of running any fragment of
the traversal on it: the count is monotone, the three munmap accumulators
are untouched, the quantity `mmap_page_count − Σ_{i<n} page_count_expr`
is invariant (the traversal adds to `mmap_page_count` exactly the page
expression of every table entry it appends), and slots at or above the
final count are untouched. -/
def TravInv (env : Env) (s r : DirSt) : Prop :=
  s.n_mappings ≤ r.n_mappings ∧
  r.info.munmap_count = s.info.munmap_count ∧
  r.info.munmap_duration = s.info.munmap_duration ∧
  r.info.munmap_page_count = s.info.munmap_page_count ∧
  r.info.mmap_page_count - pagesFrom env r.mappings 0 r.n_mappings
    = s.info.mmap_page_count - pagesFrom env s.mappings 0 s.n_mappings ∧
  (∀ j, r.n_mappings ≤ j → r.mappings j = s.mappings j)

/-- Relation between a state and the result of running any fragment of
the traversal on it, in terms of the ghost attempt trace: the trace grows
by some `Δ`, the count grows by the number of successes in `Δ`, the
`enomem` flag is set exactly when `Δ` contains an `ENOMEM` failure, and
such a failure can only be the last attempt of `Δ`. -/
def TraceRel (s r : DirSt) : Prop :=
  ∃ Δ, r.attempts = s.attempts ++ Δ ∧
    r.n_mappings = s.n_mappings + countSucc Δ ∧
    r.enomem = (s.enomem || hasENOMEM Δ) ∧
    (hasENOMEM Δ = true →
      ∃ Δ₀, Δ = Δ₀ ++ [MmapRes.failENOMEM] ∧ hasENOMEM Δ₀ = false)

/-! Concrete instances used by witnesses and counterexamples. -/

/-- A 4 KiB page size, OOM-avoid off. -/
def env0 : Env := ⟨4096, false, fun _ => false⟩

/-- A 4 KiB page size, OOM-avoid on and the low-memory predicate always
affirmative. -/
def envLow : Env := ⟨4096, true, fun _ => true⟩

/-- Zero-initialised metrics block (source lines 253-258). -/
def info0 : stress_mmapfile_info_t := ⟨0, 0, 0, 0, 0, 0⟩

/-- The calloc'd (all-NULL, all-zero) mapping table (source line 186). -/
def table0 : Nat → stress_mapping_t := fun _ => ⟨none, 0⟩

/-- A fresh traversal state: empty table, count 0, zero metrics. -/
def st0 : DirSt := ⟨table0, 0, info0, 0, false, []⟩

/-- A traversal state whose table has exactly one free slot. -/
def stCap : DirSt := ⟨table0, MMAP_MAX - 1, info0, 0, false, []⟩

/-- A traversal state entered with the `enomem` flag already raised. -/
def stEno : DirSt := ⟨table0, 3, info0, 2, true, []⟩

/-- A mappable regular file: open and fstat succeed, `mmap` succeeds. -/
def fOk : RegFile := ⟨true, true, 4096, .success 1, 0⟩

/-- A regular file whose `mmap` fails with `ENOMEM`. -/
def fEno : RegFile := ⟨true, true, 8192, .failENOMEM, 0⟩

/-- A regular file whose `open` fails. -/
def fSkip : RegFile := ⟨false, true, 5, .success 2, 0⟩

/-- A regular file that would map fine, used under `envLow` where the
low-memory predicate fires first. -/
def fLow : RegFile := ⟨true, true, 123, .success 5, 0⟩

/-- Unmap oracle: every direct `munmap` succeeds instantly. -/
def ora0 : CycleOracle := ⟨fun _ => true, fun _ => 0⟩

/-- Fresh child state: cursor 0, calloc'd table, zero metrics. -/
def cst0 : ChildSt := ⟨0, table0, info0, 0⟩

/-- A filesystem on which every `opendir` fails. -/
def fsEmpty : String → Bool × DirList := fun _ => (false, .nil)

/-- A filesystem with a single mappable regular file under `/lib`. -/
def fsOne : String → Bool × DirList := fun p =>
  if p = "/lib" then (true, .cons (.reg true "ld.so" fOk) .nil)
  else (false, .nil)

/-- Child environment with empty filesystem and constant-false settings. -/
def cenv0 : ChildEnv := ⟨env0, fsEmpty, fun _ => (false, false)⟩

/-- Child environment with one mappable file and constant-false settings. -/
def cenvOne : ChildEnv := ⟨env0, fsOne, fun _ => (false, false)⟩

/-- Child environment whose settings store changes between cycle 0 and
cycle 1: the populate flag is false when the worker starts and true from
the start of cycle 1 onwards. -/
def cenvFlip : ChildEnv := ⟨env0, fsEmpty, fun k => (decide (1 ≤ k), false)⟩

/-! Theorems. -/

/-- A frame entered with the `enomem` flag raised performs no work: the
`while` condition fails at once and the state is returned unchanged. -/
theorem loop_enomem (env : Env) (pop sh : Bool) (l : DirList) (st : DirSt)
    (h : st.enomem = true) : stress_mmapfiles_loop env pop sh l st = st := by
  cases l <;> simp [stress_mmapfiles_loop, h]

/-- Relation `TravInv` holds whenever the relevant state components are equal. -/
theorem travInv_same (env : Env) {s r : DirSt}
    (h1 : r.n_mappings = s.n_mappings) (h2 : r.info = s.info)
    (h3 : r.mappings = s.mappings) : TravInv env s r := by
  refine ⟨le_of_eq h1.symm, by rw [h2], by rw [h2], by rw [h2], ?_, ?_⟩
  · rw [h1, h2, h3]
  · intro j _
    rw [h3]

/-- Relation `TravInv` is reflexive. -/
theorem travInv_refl (env : Env) (s : DirSt) : TravInv env s s :=
  travInv_same env rfl rfl rfl

/-- Relation `TravInv` is transitive. -/
theorem travInv_trans (env : Env) {s t r : DirSt} (h1 : TravInv env s t)
    (h2 : TravInv env t r) : TravInv env s r := by
  obtain ⟨a1, b1, c1, d1, e1, f1⟩ := h1
  obtain ⟨a2, b2, c2, d2, e2, f2⟩ := h2
  refine ⟨le_trans a1 a2, b2.trans b1, c2.trans c1, d2.trans d1,
    e2.trans e1, ?_⟩
  intro j hj
  rw [f2 j hj, f1 j (le_trans a2 hj)]

/-- Appending one more slot to a `pagesFrom` range. -/
theorem pagesFrom_succ_right (env : Env) (m : Nat → stress_mapping_t) :
    ∀ n i, pagesFrom env m i (n + 1)
      = pagesFrom env m i n + page_count_expr env (m (i + n)).len := by
  intro n
  induction n with
  | zero => intro i; simp [pagesFrom]
  | succ k ih =>
      intro i
      show page_count_expr env (m i).len + pagesFrom env m (i + 1) (k + 1)
        = (page_count_expr env (m i).len + pagesFrom env m (i + 1) k)
          + page_count_expr env (m (i + (k + 1))).len
      rw [ih (i + 1), show i + 1 + k = i + (k + 1) from by omega]
      ring

/-- Updating a slot outside a `pagesFrom` range does not change the sum. -/
theorem pagesFrom_update_out (env : Env) (m : Nat → stress_mapping_t)
    (j : Nat) (v : stress_mapping_t) :
    ∀ n i, (j < i ∨ i + n ≤ j) →
      pagesFrom env (Function.update m j v) i n = pagesFrom env m i n := by
  intro n
  induction n with
  | zero => intro i _; simp [pagesFrom]
  | succ k ih =>
      intro i hj
      rw [pagesFrom, pagesFrom, ih (i + 1) (by omega),
        Function.update_noteq (by omega)]

/-- Equation: `open` failure skips the entry. -/
theorem reg_open_fail (env : Env) (f : RegFile) (st : DirSt)
    (h : f.openOk = false) :
    stress_mmapfiles_reg env f st = (st, .next) := by
  simp [stress_mmapfiles_reg, h]

/-- Equation: `fstat` failure skips the entry. -/
theorem reg_stat_fail (env : Env) (f : RegFile) (st : DirSt)
    (h1 : f.openOk = true) (h2 : f.statOk = false) :
    stress_mmapfiles_reg env f st = (st, .next) := by
  simp [stress_mmapfiles_reg, h1, h2]

/-- Equation: an affirmative low-memory predicate breaks out of the
current listing with the state untouched. -/
theorem reg_lowmem (env : Env) (f : RegFile) (st : DirSt)
    (h1 : f.openOk = true) (h2 : f.statOk = true)
    (h3 : (env.oom_avoid && env.low_memory f.st_size) = true) :
    stress_mmapfiles_reg env f st = (st, .brk) := by
  simp [stress_mmapfiles_reg, h1, h2, h3]

/-- Equation: the successful-mmap branch. -/
theorem reg_success (env : Env) (f : RegFile) (st : DirSt) (a : Nat)
    (h1 : f.openOk = true) (h2 : f.statOk = true)
    (h3 : (env.oom_avoid && env.low_memory f.st_size) = false)
    (hm : f.mmapRes = .success a) :
    stress_mmapfiles_reg env f st = (reg_success_state env f st a, .next) := by
  simp [stress_mmapfiles_reg, reg_success_state, h1, h2, h3, hm]

/-- Equation: a non-ENOMEM mmap failure only records the attempt and
falls through to the next entry. -/
theorem reg_fail_other (env : Env) (f : RegFile) (st : DirSt)
    (h1 : f.openOk = true) (h2 : f.statOk = true)
    (h3 : (env.oom_avoid && env.low_memory f.st_size) = false)
    (hm : f.mmapRes = .failOther) :
    stress_mmapfiles_reg env f st =
      ({ st with attempts := st.attempts ++ [MmapRes.failOther] }, .next) := by
  simp [stress_mmapfiles_reg, h1, h2, h3, hm]

/-- Equation: an ENOMEM mmap failure records the attempt, raises the
flag and breaks out of the listing. -/
theorem reg_fail_enomem (env : Env) (f : RegFile) (st : DirSt)
    (h1 : f.openOk = true) (h2 : f.statOk = true)
    (h3 : (env.oom_avoid && env.low_memory f.st_size) = false)
    (hm : f.mmapRes = .failENOMEM) :
    stress_mmapfiles_reg env f st =
      ({ st with attempts := st.attempts ++ [MmapRes.failENOMEM]
                 enomem := true }, .brk) := by
  simp [stress_mmapfiles_reg, h1, h2, h3, hm]

/-- The regular-file handler grows the count by at most one. -/
theorem reg_n_le (env : Env) (f : RegFile) (st : DirSt) :
    (stress_mmapfiles_reg env f st).1.n_mappings ≤ st.n_mappings + 1 := by
  cases h1 : f.openOk with
  | false => rw [reg_open_fail env f st h1]; exact Nat.le_succ _
  | true =>
    cases h2 : f.statOk with
    | false => rw [reg_stat_fail env f st h1 h2]; exact Nat.le_succ _
    | true =>
      cases h3 : env.oom_avoid && env.low_memory f.st_size with
      | true => rw [reg_lowmem env f st h1 h2 h3]; exact Nat.le_succ _
      | false =>
        cases hm : f.mmapRes with
        | success a =>
            rw [reg_success env f st a h1 h2 h3 hm]
            exact Nat.le_refl _
        | failOther =>
            rw [reg_fail_other env f st h1 h2 h3 hm]; exact Nat.le_succ _
        | failENOMEM =>
            rw [reg_fail_enomem env f st h1 h2 h3 hm]; exact Nat.le_succ _

/-- The regular-file handler satisfies the traversal invariant. -/
theorem travInv_reg (env : Env) (f : RegFile) (st : DirSt) :
    TravInv env st (stress_mmapfiles_reg env f st).1 := by
  cases h1 : f.openOk with
  | false => rw [reg_open_fail env f st h1]; exact travInv_refl env st
  | true =>
    cases h2 : f.statOk with
    | false => rw [reg_stat_fail env f st h1 h2]; exact travInv_refl env st
    | true =>
      cases h3 : env.oom_avoid && env.low_memory f.st_size with
      | true => rw [reg_lowmem env f st h1 h2 h3]; exact travInv_refl env st
      | false =>
        cases hm : f.mmapRes with
        | failOther =>
            rw [reg_fail_other env f st h1 h2 h3 hm]
            exact travInv_same env rfl rfl rfl
        | failENOMEM =>
            rw [reg_fail_enomem env f st h1 h2 h3 hm]
            exact travInv_same env rfl rfl rfl
        | success a =>
            rw [reg_success env f st a h1 h2 h3 hm]
            refine ⟨Nat.le_succ _, rfl, rfl, rfl, ?_, ?_⟩
            · show st.info.mmap_page_count + page_count_expr env f.st_size
                  - pagesFrom env (Function.update st.mappings st.n_mappings
                    ⟨some a, f.st_size⟩) 0 (st.n_mappings + 1)
                  = st.info.mmap_page_count
                  - pagesFrom env st.mappings 0 st.n_mappings
              rw [pagesFrom_succ_right, pagesFrom_update_out env st.mappings
                st.n_mappings _ st.n_mappings 0 (by omega)]
              rw [Nat.zero_add, Function.update_same]
              ring
            · intro j hj
              have hj' : st.n_mappings + 1 ≤ j := hj
              show Function.update st.mappings st.n_mappings
                ⟨some a, f.st_size⟩ j = st.mappings j
              exact Function.update_noteq (by omega) _ _

mutual
/-- Joint induction, entry half: processing one directory entry satisfies
the traversal invariant, and from a non-full table the count stays within
capacity. -/
theorem entry_inv (env : Env) (pop sh : Bool) (e : Dirent) (st : DirSt) :
    TravInv env st (stress_mmapfiles_entry env pop sh e st).1 ∧
    (st.n_mappings < MMAP_MAX →
      (stress_mmapfiles_entry env pop sh e st).1.n_mappings ≤ MMAP_MAX) := by
  cases e with
  | dir c nm openOk sub =>
      cases openOk with
      | false => exact ⟨travInv_refl env st, fun h => le_of_lt h⟩
      | true =>
          have h := loop_inv env pop sh sub st
          exact ⟨h.1, fun hlt => h.2 (le_of_lt hlt)⟩
  | reg c nm f =>
      show TravInv env st (stress_mmapfiles_reg env f st).1 ∧
        (st.n_mappings < MMAP_MAX →
          (stress_mmapfiles_reg env f st).1.n_mappings ≤ MMAP_MAX)
      refine ⟨travInv_reg env f st, fun hlt => ?_⟩
      have := reg_n_le env f st
      omega
  | other c nm => exact ⟨travInv_refl env st, fun h => le_of_lt h⟩

/-- Joint induction, loop half: running the listing loop satisfies the
traversal invariant, and from a count within capacity the count stays
within capacity. -/
theorem loop_inv (env : Env) (pop sh : Bool) (l : DirList) (st : DirSt) :
    TravInv env st (stress_mmapfiles_loop env pop sh l st) ∧
    (st.n_mappings ≤ MMAP_MAX →
      (stress_mmapfiles_loop env pop sh l st).n_mappings ≤ MMAP_MAX) := by
  cases l with
  | nil => exact ⟨travInv_refl env st, fun h => h⟩
  | cons e l =>
      cases he : st.enomem with
      | true =>
          rw [loop_enomem env pop sh _ st he]
          exact ⟨travInv_refl env st, fun h => h⟩
      | false =>
          by_cases hcap : MMAP_MAX ≤ st.n_mappings
          · have heq : stress_mmapfiles_loop env pop sh (.cons e l) st = st := by
              simp [stress_mmapfiles_loop, he, hcap]
            rw [heq]
            exact ⟨travInv_refl env st, fun h => h⟩
          · cases hcont : e.contFlag with
            | false =>
                have heq : stress_mmapfiles_loop env pop sh (.cons e l) st
                    = st := by
                  simp [stress_mmapfiles_loop, he, hcap, hcont]
                rw [heq]
                exact ⟨travInv_refl env st, fun h => h⟩
            | true =>
                by_cases hd : stress_is_dot_filename e.dname
                · have heq : stress_mmapfiles_loop env pop sh (.cons e l) st
                      = stress_mmapfiles_loop env pop sh l st := by
                    simp [stress_mmapfiles_loop, he, hcap, hcont, hd]
                  rw [heq]
                  exact loop_inv env pop sh l st
                · rcases hent : stress_mmapfiles_entry env pop sh e st
                    with ⟨st', sig⟩
                  have hi := entry_inv env pop sh e st
                  rw [hent] at hi
                  cases sig with
                  | brk =>
                      have heq : stress_mmapfiles_loop env pop sh
                          (.cons e l) st = st' := by
                        simp [stress_mmapfiles_loop, he, hcap, hcont, hd, hent]
                      rw [heq]
                      exact ⟨hi.1, fun _ => hi.2 (Nat.lt_of_not_le hcap)⟩
                  | next =>
                      have heq : stress_mmapfiles_loop env pop sh
                          (.cons e l) st
                          = stress_mmapfiles_loop env pop sh l st' := by
                        simp [stress_mmapfiles_loop, he, hcap, hcont, hd, hent]
                      rw [heq]
                      have hr := loop_inv env pop sh l st'
                      exact ⟨travInv_trans env hi.1 hr.1,
                        fun _ => hr.2 (hi.2 (Nat.lt_of_not_le hcap))⟩
end

/-- Function `countSucc` distributes over append. -/
theorem countSucc_append : ∀ a b : List MmapRes,
    countSucc (a ++ b) = countSucc a + countSucc b := by
  intro a b
  induction a with
  | nil => simp [countSucc]
  | cons x r ih =>
      cases x with
      | success a => simp [countSucc, ih]; omega
      | failOther => simp [countSucc, ih]
      | failENOMEM => simp [countSucc, ih]

/-- Function `hasENOMEM` distributes over append. -/
theorem hasENOMEM_append : ∀ a b : List MmapRes,
    hasENOMEM (a ++ b) = (hasENOMEM a || hasENOMEM b) := by
  intro a b
  induction a with
  | nil => simp [hasENOMEM]
  | cons x r ih => cases x <;> simp [hasENOMEM, ih]

/-- Relation `TraceRel` holds whenever the trace, count and flag are unchanged. -/
theorem traceRel_same {s r : DirSt} (h1 : r.attempts = s.attempts)
    (h2 : r.n_mappings = s.n_mappings) (h3 : r.enomem = s.enomem) :
    TraceRel s r := by
  refine ⟨[], by simp [h1], by simp [h2, countSucc], by simp [h3, hasENOMEM],
    by simp [hasENOMEM]⟩

/-- Relation `TraceRel` composes across two sequential fragments that both start
and end with the flag down. -/
theorem traceRel_trans_of {s t r : DirSt} (hs : s.enomem = false)
    (ht : t.enomem = false) (h1 : TraceRel s t) (h2 : TraceRel t r) :
    TraceRel s r := by
  obtain ⟨Δ1, a1, n1, e1, s1⟩ := h1
  obtain ⟨Δ2, a2, n2, e2, s2⟩ := h2
  have hΔ1 : hasENOMEM Δ1 = false := by
    rw [ht, hs] at e1
    simpa using e1.symm
  refine ⟨Δ1 ++ Δ2, ?_, ?_, ?_, ?_⟩
  · rw [a2, a1, List.append_assoc]
  · rw [n2, n1, countSucc_append, Nat.add_assoc]
  · rw [e2, ht, hs, hasENOMEM_append, hΔ1]
    simp
  · intro hE
    rw [hasENOMEM_append, hΔ1, Bool.false_or] at hE
    obtain ⟨Δ0, hΔ0, hΔ0f⟩ := s2 hE
    refine ⟨Δ1 ++ Δ0, ?_, ?_⟩
    · rw [hΔ0, List.append_assoc]
    · rw [hasENOMEM_append, hΔ1, hΔ0f]
      simp

/-- The regular-file handler satisfies the trace relation. -/
theorem traceRel_reg (env : Env) (f : RegFile) (st : DirSt) :
    TraceRel st (stress_mmapfiles_reg env f st).1 := by
  cases h1 : f.openOk with
  | false => rw [reg_open_fail env f st h1]; exact traceRel_same rfl rfl rfl
  | true =>
    cases h2 : f.statOk with
    | false =>
        rw [reg_stat_fail env f st h1 h2]
        exact traceRel_same rfl rfl rfl
    | true =>
      cases h3 : env.oom_avoid && env.low_memory f.st_size with
      | true =>
          rw [reg_lowmem env f st h1 h2 h3]
          exact traceRel_same rfl rfl rfl
      | false =>
        cases hm : f.mmapRes with
        | success a =>
            rw [reg_success env f st a h1 h2 h3 hm]
            exact ⟨[MmapRes.success a], rfl,
              by simp [countSucc, reg_success_state],
              by simp [hasENOMEM, reg_success_state],
              by simp [hasENOMEM]⟩
        | failOther =>
            rw [reg_fail_other env f st h1 h2 h3 hm]
            exact ⟨[MmapRes.failOther], rfl, by simp [countSucc],
              by simp [hasENOMEM], by simp [hasENOMEM]⟩
        | failENOMEM =>
            rw [reg_fail_enomem env f st h1 h2 h3 hm]
            exact ⟨[MmapRes.failENOMEM], rfl, by simp [countSucc],
              by simp [hasENOMEM], fun _ => ⟨[], rfl, rfl⟩⟩

mutual
/-- Joint induction, entry half: processing one entry satisfies the
trace relation. -/
theorem entry_trace (env : Env) (pop sh : Bool) (e : Dirent) (st : DirSt) :
    TraceRel st (stress_mmapfiles_entry env pop sh e st).1 := by
  cases e with
  | dir c nm openOk sub =>
      cases openOk with
      | false => exact traceRel_same rfl rfl rfl
      | true => exact loop_trace env pop sh sub st
  | reg c nm f =>
      show TraceRel st (stress_mmapfiles_reg env f st).1
      exact traceRel_reg env f st
  | other c nm => exact traceRel_same rfl rfl rfl

/-- Joint induction, loop half: running the listing loop satisfies the
trace relation. -/
theorem loop_trace (env : Env) (pop sh : Bool) (l : DirList) (st : DirSt) :
    TraceRel st (stress_mmapfiles_loop env pop sh l st) := by
  cases l with
  | nil => exact traceRel_same rfl rfl rfl
  | cons e l =>
      cases he : st.enomem with
      | true =>
          rw [loop_enomem env pop sh _ st he]
          exact traceRel_same rfl rfl rfl
      | false =>
          by_cases hcap : MMAP_MAX ≤ st.n_mappings
          · have heq : stress_mmapfiles_loop env pop sh (.cons e l) st = st := by
              simp [stress_mmapfiles_loop, he, hcap]
            rw [heq]
            exact traceRel_same rfl rfl rfl
          · cases hcont : e.contFlag with
            | false =>
                have heq : stress_mmapfiles_loop env pop sh (.cons e l) st
                    = st := by
                  simp [stress_mmapfiles_loop, he, hcap, hcont]
                rw [heq]
                exact traceRel_same rfl rfl rfl
            | true =>
                by_cases hd : stress_is_dot_filename e.dname
                · have heq : stress_mmapfiles_loop env pop sh (.cons e l) st
                      = stress_mmapfiles_loop env pop sh l st := by
                    simp [stress_mmapfiles_loop, he, hcap, hcont, hd]
                  rw [heq]
                  exact loop_trace env pop sh l st
                · rcases hent : stress_mmapfiles_entry env pop sh e st
                    with ⟨st', sig⟩
                  have hi := entry_trace env pop sh e st
                  rw [hent] at hi
                  cases sig with
                  | brk =>
                      have heq : stress_mmapfiles_loop env pop sh
                          (.cons e l) st = st' := by
                        simp [stress_mmapfiles_loop, he, hcap, hcont, hd, hent]
                      rw [heq]
                      exact hi
                  | next =>
                      have heq : stress_mmapfiles_loop env pop sh
                          (.cons e l) st
                          = stress_mmapfiles_loop env pop sh l st' := by
                        simp [stress_mmapfiles_loop, he, hcap, hcont, hd, hent]
                      rw [heq]
                      cases hse : st'.enomem with
                      | true =>
                          rw [loop_enomem env pop sh l st' hse]
                          exact hi
                      | false =>
                          exact traceRel_trans_of he hse hi
                            (loop_trace env pop sh l st')
end

/-- Resetting the per-root `enomem` flag relates to the original state by
the traversal invariant (no table, count or metric component changes). -/
theorem travInv_enomem_reset (env : Env) (st : DirSt) :
    TravInv env st { st with enomem := false } :=
  travInv_same env rfl rfl rfl

/-- Function `stress_mmapfiles_dir` satisfies the traversal invariant. -/
theorem travInv_dir (env : Env) (pop sh : Bool) (openOk : Bool)
    (l : DirList) (st : DirSt) :
    TravInv env st (stress_mmapfiles_dir env pop sh openOk l st) := by
  cases openOk with
  | false => exact travInv_refl env st
  | true =>
      show TravInv env st (stress_mmapfiles_loop env pop sh l st)
      exact (loop_inv env pop sh l st).1

/-- One root visit satisfies the traversal invariant. -/
theorem travInv_root_step (cenv : ChildEnv) (pop sh : Bool) (idx : Nat)
    (st : DirSt) : TravInv cenv.env st (root_step cenv pop sh idx st) :=
  travInv_trans cenv.env (travInv_enomem_reset cenv.env st)
    (travInv_dir cenv.env pop sh _ _ _)

/-- The whole roots loop satisfies the traversal invariant. -/
theorem travInv_roots_loop (cenv : ChildEnv) (pop sh : Bool) :
    ∀ fuel idx vis st,
      TravInv cenv.env st (roots_loop cenv pop sh fuel idx vis st).2.2 := by
  intro fuel
  induction fuel with
  | zero => intro idx vis st; exact travInv_refl cenv.env st
  | succ k ih =>
      intro idx vis st
      rw [roots_loop]
      by_cases h : (root_step cenv pop sh idx st).enomem = true
      · rw [if_pos h]
        exact travInv_root_step cenv pop sh idx st
      · rw [if_neg h]
        exact travInv_trans cenv.env (travInv_root_step cenv pop sh idx st)
          (ih (idx_advance idx) (vis + 1) (root_step cenv pop sh idx st))

/-- Cursor advance equals `(idx + 1) % dirs.length` for an in-range
cursor. -/
theorem idx_advance_mod (idx : Nat) (h : idx < dirs.length) :
    idx_advance idx = (idx + 1) % dirs.length := by
  unfold idx_advance
  by_cases h2 : dirs.length ≤ idx + 1
  · have : idx + 1 = dirs.length := by omega
    rw [if_pos h2, this, Nat.mod_self]
  · rw [if_neg h2, Nat.mod_eq_of_lt (by omega)]

/-- The roots loop visits between 1 and `fuel` roots (when it has fuel)
and leaves the cursor at `start + visited` modulo the rotation length. -/
theorem roots_loop_idx (cenv : ChildEnv) (pop sh : Bool) :
    ∀ fuel idx vis st, idx < dirs.length →
      ∃ k, (roots_loop cenv pop sh fuel idx vis st).2.1 = vis + k ∧
        (roots_loop cenv pop sh fuel idx vis st).1 = (idx + k) % dirs.length ∧
        k ≤ fuel ∧ (0 < fuel → 0 < k) := by
  intro fuel
  induction fuel with
  | zero =>
      intro idx vis st h
      refine ⟨0, rfl, ?_, le_refl 0, fun hf => absurd hf (by omega)⟩
      show idx = (idx + 0) % dirs.length
      rw [Nat.add_zero, Nat.mod_eq_of_lt h]
  | succ n ih =>
      intro idx vis st h
      rw [roots_loop]
      by_cases he : (root_step cenv pop sh idx st).enomem = true
      · rw [if_pos he]
        exact ⟨1, rfl, idx_advance_mod idx h, by omega, fun _ => by omega⟩
      · rw [if_neg he]
        have hadv : idx_advance idx < dirs.length := by
          rw [idx_advance_mod idx h]
          exact Nat.mod_lt _ (by decide)
        obtain ⟨k, hvis, hidx, hk, hk0⟩ :=
          ih (idx_advance idx) (vis + 1) (root_step cenv pop sh idx st) hadv
        refine ⟨k + 1, ?_, ?_, by omega, fun _ => by omega⟩
        · rw [hvis]
          omega
        · rw [hidx, idx_advance_mod idx h, Nat.mod_add_mod,
            show idx + 1 + k = idx + (k + 1) from by omega]

/-- One unmap step recorded in equation form: the table update. -/
theorem munmap_step_mappings (env : Env) (ora : CycleOracle) (ust : UnmapSt)
    (i : Nat) : (munmap_step env ora ust i).mappings
      = Function.update ust.mappings i ⟨none, 0⟩ := rfl

/-- One unmap step recorded in equation form: the attempt trace. -/
theorem munmap_step_attempts (env : Env) (ora : CycleOracle) (ust : UnmapSt)
    (i : Nat) : (munmap_step env ora ust i).attempts
      = ust.attempts ++ [((ust.mappings i).addr, (ust.mappings i).len)] := rfl

/-- An unmap step never touches the three mmap accumulators. -/
theorem munmap_step_mmap_fields (env : Env) (ora : CycleOracle)
    (ust : UnmapSt) (i : Nat) :
    (munmap_step env ora ust i).info.mmap_page_count
        = ust.info.mmap_page_count ∧
    (munmap_step env ora ust i).info.mmap_count = ust.info.mmap_count ∧
    (munmap_step env ora ust i).info.mmap_duration
        = ust.info.mmap_duration := by
  by_cases h : ora.munmap_ok i = true <;> simp [munmap_step, h]

/-- A successful unmap step accumulates duration, count and the page
expression of the slot it just unmapped. -/
theorem munmap_step_info_ok (env : Env) (ora : CycleOracle) (ust : UnmapSt)
    (i : Nat) (h : ora.munmap_ok i = true) :
    (munmap_step env ora ust i).info
      = { ust.info with
          munmap_duration := ust.info.munmap_duration + ora.munmap_delta i
          munmap_count := ust.info.munmap_count + 1
          munmap_page_count := ust.info.munmap_page_count
            + page_count_expr env (ust.mappings i).len } := by
  simp [munmap_step, h]

/-- After the unmap loop over slots `[i, i + fuel)`, exactly those slots
are cleared and every other slot is untouched. -/
theorem munmap_from_mappings (env : Env) (ora : CycleOracle) :
    ∀ fuel i ust j, (munmap_from env ora i fuel ust).mappings j
      = if i ≤ j ∧ j < i + fuel then ⟨none, 0⟩ else ust.mappings j := by
  intro fuel
  induction fuel with
  | zero =>
      intro i ust j
      show ust.mappings j = _
      rw [if_neg (by omega)]
  | succ n ih =>
      intro i ust j
      rw [show munmap_from env ora i (n + 1) ust
          = munmap_from env ora (i + 1) n (munmap_step env ora ust i)
          from rfl, ih (i + 1) (munmap_step env ora ust i) j]
      by_cases h1 : i + 1 ≤ j ∧ j < i + 1 + n
      · rw [if_pos h1, if_pos (by omega)]
      · rw [if_neg h1, munmap_step_mappings]
        by_cases hj : j = i
        · subst hj
          rw [if_pos (by omega), Function.update_same]
        · rw [if_neg (by omega), Function.update_noteq hj]

/-- The unmap loop over slots `[i, i + fuel)` attempts exactly those
slots, in ascending order, passing each slot's recorded address and
length. -/
theorem munmap_from_attempts (env : Env) (ora : CycleOracle) :
    ∀ fuel i ust, (munmap_from env ora i fuel ust).attempts
      = ust.attempts ++ (List.range fuel).map
          (fun k => ((ust.mappings (i + k)).addr,
                     (ust.mappings (i + k)).len)) := by
  intro fuel
  induction fuel with
  | zero => intro i ust; simp [munmap_from]
  | succ n ih =>
      intro i ust
      rw [show munmap_from env ora i (n + 1) ust
          = munmap_from env ora (i + 1) n (munmap_step env ora ust i)
          from rfl, ih (i + 1) (munmap_step env ora ust i)]
      have hmap : (List.range n).map (fun k =>
            (((munmap_step env ora ust i).mappings (i + 1 + k)).addr,
             ((munmap_step env ora ust i).mappings (i + 1 + k)).len))
          = (List.range n).map (fun k =>
            ((ust.mappings (i + (k + 1))).addr,
             (ust.mappings (i + (k + 1))).len)) := by
        apply List.map_congr_left
        intro k _
        have h1 : (munmap_step env ora ust i).mappings (i + 1 + k)
            = ust.mappings (i + 1 + k) := by
          rw [munmap_step_mappings]
          exact Function.update_noteq (by omega) _ _
        rw [h1, show i + 1 + k = i + (k + 1) from by omega]
      rw [hmap, munmap_step_attempts, List.append_assoc,
        List.singleton_append]
      congr 1
      rw [List.range_succ_eq_map, List.map_cons, List.map_map]
      rfl

/-- The unmap loop never touches the three mmap accumulators. -/
theorem munmap_from_mmap_fields (env : Env) (ora : CycleOracle) :
    ∀ fuel i ust,
      (munmap_from env ora i fuel ust).info.mmap_page_count
          = ust.info.mmap_page_count ∧
      (munmap_from env ora i fuel ust).info.mmap_count
          = ust.info.mmap_count ∧
      (munmap_from env ora i fuel ust).info.mmap_duration
          = ust.info.mmap_duration := by
  intro fuel
  induction fuel with
  | zero => intro i ust; exact ⟨rfl, rfl, rfl⟩
  | succ n ih =>
      intro i ust
      rw [show munmap_from env ora i (n + 1) ust
          = munmap_from env ora (i + 1) n (munmap_step env ora ust i)
          from rfl]
      obtain ⟨a, b, c⟩ := ih (i + 1) (munmap_step env ora ust i)
      obtain ⟨a', b', c'⟩ := munmap_step_mmap_fields env ora ust i
      exact ⟨a.trans a', b.trans b', c.trans c'⟩

/-- When every direct `munmap` succeeds, the unmap loop over
`[i, i + fuel)` adds exactly `fuel` to `munmap_count` and the sum of the
slots' page expressions to `munmap_page_count`. -/
theorem munmap_from_info_ok (env : Env) (ora : CycleOracle)
    (hok : ∀ j, ora.munmap_ok j = true) :
    ∀ fuel i ust,
      (munmap_from env ora i fuel ust).info.munmap_count
          = ust.info.munmap_count + (fuel : ℚ) ∧
      (munmap_from env ora i fuel ust).info.munmap_page_count
          = ust.info.munmap_page_count + pagesFrom env ust.mappings i fuel := by
  intro fuel
  induction fuel with
  | zero => intro i ust; constructor <;> simp [munmap_from, pagesFrom]
  | succ n ih =>
      intro i ust
      rw [show munmap_from env ora i (n + 1) ust
          = munmap_from env ora (i + 1) n (munmap_step env ora ust i)
          from rfl]
      obtain ⟨hc, hp⟩ := ih (i + 1) (munmap_step env ora ust i)
      have hfield := munmap_step_info_ok env ora ust i (hok i)
      have hpages : pagesFrom env (munmap_step env ora ust i).mappings
          (i + 1) n = pagesFrom env ust.mappings (i + 1) n := by
        rw [munmap_step_mappings]
        exact pagesFrom_update_out env ust.mappings i _ n (i + 1)
          (Or.inl (by omega))
      constructor
      · rw [hc, hfield]
        push_cast
        ring
      · rw [hp, hfield, hpages, pagesFrom]
        ring

/-! Claim theorems. -/

/-- C7: for every final accumulator state, each of the four
duration-based derived rates is exactly 0 whenever its duration
accumulator is exactly zero (even if the corresponding count is
positive), the pages-per-mapping rate is exactly 0 whenever `mmap_count`
is zero, and a quotient is only ever formed under the corresponding
strictly-positive guard (the reporter never divides by zero). -/
theorem C7_rate_guards (m : stress_mmapfile_info_t) :
    (m.mmap_duration = 0 → metric_file_mmaps_per_sec m = 0 ∧
      metric_file_pages_mmapd_per_sec m = 0) ∧
    (m.munmap_duration = 0 → metric_file_munmap_per_sec m = 0 ∧
      metric_file_pages_munmapd_per_sec m = 0) ∧
    (m.mmap_count = 0 → metric_pages_per_mapping m = 0) ∧
    (0 < m.mmap_duration →
      metric_file_mmaps_per_sec m = m.mmap_count / m.mmap_duration ∧
      metric_file_pages_mmapd_per_sec m
        = m.mmap_page_count / m.mmap_duration) ∧
    (0 < m.munmap_duration →
      metric_file_munmap_per_sec m = m.munmap_count / m.munmap_duration ∧
      metric_file_pages_munmapd_per_sec m
        = m.munmap_page_count / m.munmap_duration) ∧
    (0 < m.mmap_count →
      metric_pages_per_mapping m = m.mmap_page_count / m.mmap_count) := by
  refine ⟨fun h => ⟨?_, ?_⟩, fun h => ⟨?_, ?_⟩, fun h => ?_,
    fun h => ⟨?_, ?_⟩, fun h => ⟨?_, ?_⟩, fun h => ?_⟩ <;>
  simp [metric_file_mmaps_per_sec, metric_file_pages_mmapd_per_sec,
    metric_file_munmap_per_sec, metric_file_pages_munmapd_per_sec,
    metric_pages_per_mapping, h]

/-- Witness for C7 at concrete accumulator states with positive counts
but zero durations, and with zero `mmap_count`. -/
theorem C7_witness :
    metric_file_mmaps_per_sec ⟨3, 5, 0, 7, 2, 0⟩ = 0 ∧
    metric_file_pages_mmapd_per_sec ⟨3, 5, 0, 7, 2, 0⟩ = 0 ∧
    metric_file_munmap_per_sec ⟨3, 5, 0, 7, 2, 0⟩ = 0 ∧
    metric_file_pages_munmapd_per_sec ⟨3, 5, 0, 7, 2, 0⟩ = 0 ∧
    metric_pages_per_mapping ⟨3, 0, 1, 7, 2, 1⟩ = 0 :=
  ⟨((C7_rate_guards ⟨3, 5, 0, 7, 2, 0⟩).1 rfl).1,
   ((C7_rate_guards ⟨3, 5, 0, 7, 2, 0⟩).1 rfl).2,
   ((C7_rate_guards ⟨3, 5, 0, 7, 2, 0⟩).2.1 rfl).1,
   ((C7_rate_guards ⟨3, 5, 0, 7, 2, 0⟩).2.1 rfl).2,
   (C7_rate_guards ⟨3, 0, 1, 7, 2, 1⟩).2.2.1 rfl⟩

/-- C9: a directory entry whose handling stops before a successful
mapping (open fails, fstat fails, the low-memory predicate fires, or the
mmap call fails for any reason) leaves all six metric accumulators, the
bogo counter, the table count and the table contents unchanged; in
particular the elapsed time measured around a failed mmap call is never
added to `mmap_duration`. -/
theorem C9_failed_entry_frame (env : Env) (f : RegFile) (st : DirSt)
    (h : f.openOk = false ∨ f.statOk = false ∨
      (env.oom_avoid && env.low_memory f.st_size) = true ∨
      f.mmapRes.isSuccess = false) :
    (stress_mmapfiles_reg env f st).1.info = st.info ∧
    (stress_mmapfiles_reg env f st).1.bogo = st.bogo ∧
    (stress_mmapfiles_reg env f st).1.n_mappings = st.n_mappings ∧
    (stress_mmapfiles_reg env f st).1.mappings = st.mappings := by
  cases h1 : f.openOk with
  | false => rw [reg_open_fail env f st h1]; exact ⟨rfl, rfl, rfl, rfl⟩
  | true =>
    cases h2 : f.statOk with
    | false => rw [reg_stat_fail env f st h1 h2]; exact ⟨rfl, rfl, rfl, rfl⟩
    | true =>
      cases h3 : env.oom_avoid && env.low_memory f.st_size with
      | true => rw [reg_lowmem env f st h1 h2 h3]; exact ⟨rfl, rfl, rfl, rfl⟩
      | false =>
        cases hm : f.mmapRes with
        | success a =>
            rcases h with h | h | h | h <;>
              simp [h1, h2, h3, hm, MmapRes.isSuccess] at h
        | failOther =>
            rw [reg_fail_other env f st h1 h2 h3 hm]
            exact ⟨rfl, rfl, rfl, rfl⟩
        | failENOMEM =>
            rw [reg_fail_enomem env f st h1 h2 h3 hm]
            exact ⟨rfl, rfl, rfl, rfl⟩

/-- Witness for C9 at a concrete file whose `open` fails. -/
theorem C9_witness :
    (stress_mmapfiles_reg env0 fSkip st0).1.info = st0.info ∧
    (stress_mmapfiles_reg env0 fSkip st0).1.bogo = st0.bogo ∧
    (stress_mmapfiles_reg env0 fSkip st0).1.n_mappings = st0.n_mappings ∧
    (stress_mmapfiles_reg env0 fSkip st0).1.mappings = st0.mappings :=
  C9_failed_entry_frame env0 fSkip st0 (Or.inl rfl)

/-- C8: when the OOM-avoid flag is set and the injected low-memory
predicate affirms for the requested length, the handler breaks with the
state untouched (the fd close has no modelled effect); a listing headed
by such a file is abandoned with the state unchanged — the `enomem` flag
stays exactly as it was (false) and no metric moves; and a parent
directory's loop carries on with its remaining entries afterwards. -/
theorem C8_lowmem_stop (env : Env) (pop sh : Bool) (f : RegFile)
    (nm : String) (sub_rest rest : DirList) (st : DirSt)
    (he : st.enomem = false) (hcap : st.n_mappings < MMAP_MAX)
    (hnm : stress_is_dot_filename nm = false)
    (h1 : f.openOk = true) (h2 : f.statOk = true)
    (h3 : (env.oom_avoid && env.low_memory f.st_size) = true) :
    stress_mmapfiles_reg env f st = (st, .brk) ∧
    stress_mmapfiles_loop env pop sh
      (.cons (.reg true nm f) sub_rest) st = st ∧
    stress_mmapfiles_loop env pop sh
      (.cons (.dir true nm true (.cons (.reg true nm f) sub_rest)) rest) st
      = stress_mmapfiles_loop env pop sh rest st := by
  have hreg : stress_mmapfiles_reg env f st = (st, .brk) :=
    reg_lowmem env f st h1 h2 h3
  have hpart2 : stress_mmapfiles_loop env pop sh
      (.cons (.reg true nm f) sub_rest) st = st := by
    simp [stress_mmapfiles_loop, stress_mmapfiles_entry, he,
      not_le.mpr hcap, Dirent.contFlag, Dirent.dname, hnm, hreg]
  have hentry : stress_mmapfiles_entry env pop sh
      (.dir true nm true (.cons (.reg true nm f) sub_rest)) st
      = (st, .next) := by
    simp [stress_mmapfiles_entry, hpart2]
  refine ⟨hreg, hpart2, ?_⟩
  simp [stress_mmapfiles_loop, he, not_le.mpr hcap, Dirent.contFlag,
    Dirent.dname, hnm, hentry]

/-- Witness for C8 at a concrete environment where the predicate always
fires. -/
theorem C8_witness :
    stress_mmapfiles_reg envLow fLow st0 = (st0, LoopSig.brk) ∧
    stress_mmapfiles_loop envLow false false
      (.cons (.reg true "f" fLow) .nil) st0 = st0 ∧
    stress_mmapfiles_loop envLow false false
      (.cons (.dir true "f" true (.cons (.reg true "f" fLow) .nil)) .nil)
      st0 = stress_mmapfiles_loop envLow false false .nil st0 :=
  C8_lowmem_stop envLow false false fLow "f" .nil .nil st0 rfl
    (by decide) (by decide) rfl rfl rfl

/-- C2 (code evaluation): the per-mapping amount the code adds to
`mmap_page_count` is `(double)(len + page_size - 1) / page_size`, a real
(not integer) division, so it differs from `ceil(len / page_size)`.
With `page_size = 4096`: a successful mapping of a file of length
`4095 = page_size - 1` adds `8190 / 4096` (≈ 1.9995), not the claimed
`⌈4095 / 4096⌉ = 1`; a successful mapping of a zero-length file adds
`4095 / 4096`, not the claimed `0`.  (`(4095 + 4096 - 1) / 4096 : ℕ` and
`(0 + 4096 - 1) / 4096 : ℕ` below are the integer-ceiling values the
claim asserts.) -/
theorem C2_page_count_eval :
    (stress_mmapfiles_reg env0 ⟨true, true, 4095, .success 1, 0⟩
        st0).1.info.mmap_page_count = 8190 / 4096 ∧
    ((8190 : ℚ) / 4096 ≠ ((4095 + 4096 - 1) / 4096 : ℕ)) ∧
    (stress_mmapfiles_reg env0 ⟨true, true, 0, .success 1, 0⟩
        st0).1.info.mmap_page_count = 4095 / 4096 ∧
    ((4095 : ℚ) / 4096 ≠ ((0 + 4096 - 1) / 4096 : ℕ)) := by
  refine ⟨?_, by norm_num, ?_, by norm_num⟩
  · rw [reg_success env0 _ st0 1 rfl rfl rfl rfl]
    show st0.info.mmap_page_count + page_count_expr env0 4095 = 8190 / 4096
    simp [st0, info0, page_count_expr, env0]
  · rw [reg_success env0 _ st0 1 rfl rfl rfl rfl]
    show st0.info.mmap_page_count + page_count_expr env0 0 = 4095 / 4096
    simp [st0, info0, page_count_expr, env0]

/-- C3: a traversal frame entered with the `enomem` flag raised does no
work at all (every frame of the recursion short-circuits); and a
traversal pass whose very first mmap attempt fails with `ENOMEM` returns
with the table count exactly as it was at entry and with the flag
observably true.  The "first attempt" is phrased via the ghost attempt
trace: the pass starts with an empty trace and the head of the final
trace is the `ENOMEM` failure. -/
theorem C3_first_attempt_enomem (env : Env) (pop sh : Bool)
    (openOk : Bool) (l : DirList) (st : DirSt) :
    (st.enomem = true → stress_mmapfiles_dir env pop sh openOk l st = st) ∧
    (st.enomem = false → st.attempts = [] →
      (stress_mmapfiles_dir env pop sh openOk l st).attempts.head?
          = some MmapRes.failENOMEM →
      (stress_mmapfiles_dir env pop sh openOk l st).n_mappings
          = st.n_mappings ∧
      (stress_mmapfiles_dir env pop sh openOk l st).enomem = true) := by
  constructor
  · intro h
    cases openOk with
    | false => rfl
    | true => exact loop_enomem env pop sh l st h
  · intro he hatt hhead
    have htr : TraceRel st (stress_mmapfiles_dir env pop sh openOk l st) := by
      cases openOk with
      | false => exact traceRel_same rfl rfl rfl
      | true =>
          show TraceRel st (stress_mmapfiles_loop env pop sh l st)
          exact loop_trace env pop sh l st
    obtain ⟨Δ, ha, hn, hflag, hsuf⟩ := htr
    rw [hatt, List.nil_append] at ha
    rw [ha] at hhead
    have hΔ : Δ = [MmapRes.failENOMEM] := by
      cases hΔc : Δ with
      | nil => rw [hΔc] at hhead; simp at hhead
      | cons x xs =>
          have hx : x = MmapRes.failENOMEM := by
            rw [hΔc] at hhead
            simpa using hhead
          have hE : hasENOMEM Δ = true := by
            rw [hΔc, hx]
            rfl
          obtain ⟨Δ₀, hdec, hΔ₀⟩ := hsuf hE
          cases hΔ₀c : Δ₀ with
          | nil => rw [← hΔc, hdec, hΔ₀c, List.nil_append]
          | cons y ys =>
              rw [hΔ₀c, List.cons_append] at hdec
              rw [hΔc] at hdec
              injection hdec with hxy hrest
              rw [hΔ₀c, ← hxy, hx] at hΔ₀
              simp [hasENOMEM] at hΔ₀
    refine ⟨?_, ?_⟩
    · rw [hn, hΔ]
      simp [countSucc]
    · rw [hflag, he, hΔ]
      rfl

/-- Witness for C3: a pass entered with the flag raised is inert, and a
pass whose single file fails its mmap with `ENOMEM` keeps the count and
raises the flag. -/
theorem C3_witness :
    stress_mmapfiles_dir env0 false false true DirList.nil stEno = stEno ∧
    (stress_mmapfiles_dir env0 false false true
        (.cons (.reg true "x" fEno) .nil) st0).n_mappings
      = st0.n_mappings ∧
    (stress_mmapfiles_dir env0 false false true
        (.cons (.reg true "x" fEno) .nil) st0).enomem = true := by
  refine ⟨(C3_first_attempt_enomem env0 false false true .nil stEno).1 rfl,
    ?_, ?_⟩
  · exact ((C3_first_attempt_enomem env0 false false true
      (.cons (.reg true "x" fEno) .nil) st0).2 rfl rfl (by decide)).1
  · exact ((C3_first_attempt_enomem env0 false false true
      (.cons (.reg true "x" fEno) .nil) st0).2 rfl rfl (by decide)).2

/-- C1: a traversal pass started from a count within capacity never
takes the count above `MMAP_MAX` (the loop stops appending once capacity
is reached, mid-listing, without error); and at the capacity boundary —
table with exactly one free slot, directory listing two mappable regular
files — exactly one of them is mapped (`mmap_count` rises by exactly 1),
the count ends at exactly `MMAP_MAX`, and the pass ends without error
(`enomem` stays false). -/
theorem C1_capacity (env : Env) (pop sh : Bool) :
    (∀ (openOk : Bool) (l : DirList) (st : DirSt),
        st.n_mappings ≤ MMAP_MAX →
        (stress_mmapfiles_dir env pop sh openOk l st).n_mappings
          ≤ MMAP_MAX) ∧
    (∀ (c2 : Bool) (nm1 nm2 : String) (f1 f2 : RegFile) (st : DirSt)
        (a1 : Nat),
        st.n_mappings = MMAP_MAX - 1 → st.enomem = false →
        stress_is_dot_filename nm1 = false →
        f1.openOk = true → f1.statOk = true →
        (env.oom_avoid && env.low_memory f1.st_size) = false →
        f1.mmapRes = .success a1 →
        f2.openOk = true → f2.statOk = true →
        (env.oom_avoid && env.low_memory f2.st_size) = false →
        f2.mmapRes.isSuccess = true →
        (stress_mmapfiles_dir env pop sh true
            (.cons (.reg true nm1 f1) (.cons (.reg c2 nm2 f2) .nil))
            st).n_mappings = MMAP_MAX ∧
        (stress_mmapfiles_dir env pop sh true
            (.cons (.reg true nm1 f1) (.cons (.reg c2 nm2 f2) .nil))
            st).enomem = false ∧
        (stress_mmapfiles_dir env pop sh true
            (.cons (.reg true nm1 f1) (.cons (.reg c2 nm2 f2) .nil))
            st).info.mmap_count = st.info.mmap_count + 1) := by
  constructor
  · intro openOk l st h
    cases openOk with
    | false => exact h
    | true =>
        show (stress_mmapfiles_loop env pop sh l st).n_mappings ≤ MMAP_MAX
        exact (loop_inv env pop sh l st).2 h
  · intro c2 nm1 nm2 f1 f2 st a1 hn he hnm1 ho1 hs1 hl1 hm1 ho2 hs2 hl2 hm2
    have h0 : 0 < MMAP_MAX := by decide
    have hcap : st.n_mappings < MMAP_MAX := by omega
    have hreg : stress_mmapfiles_reg env f1 st
        = (reg_success_state env f1 st a1, .next) :=
      reg_success env f1 st a1 ho1 hs1 hl1 hm1
    have hstep : stress_mmapfiles_dir env pop sh true
        (.cons (.reg true nm1 f1) (.cons (.reg c2 nm2 f2) .nil)) st
        = stress_mmapfiles_loop env pop sh (.cons (.reg c2 nm2 f2) .nil)
            (reg_success_state env f1 st a1) := by
      show stress_mmapfiles_loop env pop sh
          (.cons (.reg true nm1 f1) (.cons (.reg c2 nm2 f2) .nil)) st = _
      simp [stress_mmapfiles_loop, stress_mmapfiles_entry, he,
        not_le.mpr hcap, Dirent.contFlag, Dirent.dname, hnm1, hreg]
    have hfull : MMAP_MAX ≤ (reg_success_state env f1 st a1).n_mappings := by
      show MMAP_MAX ≤ st.n_mappings + 1
      omega
    have hstop : stress_mmapfiles_loop env pop sh
        (.cons (.reg c2 nm2 f2) .nil) (reg_success_state env f1 st a1)
        = reg_success_state env f1 st a1 := by
      cases hre : (reg_success_state env f1 st a1).enomem with
      | true => exact loop_enomem env pop sh _ _ hre
      | false => simp [stress_mmapfiles_loop, hre, hfull]
    rw [hstep, hstop]
    refine ⟨?_, ?_, rfl⟩
    · show st.n_mappings + 1 = MMAP_MAX
      omega
    · show st.enomem = false
      exact he

/-- Witness for C1: the empty listing keeps the zero count within
capacity, and from a table with one free slot a two-file listing maps
exactly one file and stops at capacity without error. -/
theorem C1_witness :
    (stress_mmapfiles_dir env0 false false true DirList.nil st0).n_mappings
      ≤ MMAP_MAX ∧
    (stress_mmapfiles_dir env0 false false true
        (.cons (.reg true "a" fOk) (.cons (.reg true "b" fOk) .nil))
        stCap).n_mappings = MMAP_MAX ∧
    (stress_mmapfiles_dir env0 false false true
        (.cons (.reg true "a" fOk) (.cons (.reg true "b" fOk) .nil))
        stCap).enomem = false ∧
    (stress_mmapfiles_dir env0 false false true
        (.cons (.reg true "a" fOk) (.cons (.reg true "b" fOk) .nil))
        stCap).info.mmap_count = stCap.info.mmap_count + 1 := by
  have h := (C1_capacity env0 false false).2 true "a" "b" fOk fOk stCap 1
    rfl rfl (by decide) rfl rfl rfl rfl rfl rfl rfl rfl
  exact ⟨(C1_capacity env0 false false).1 true DirList.nil st0
    (Nat.zero_le _), h.1, h.2.1, h.2.2⟩

/-- Ghost flags trace of the cycle fold: every executed cycle records the
`(populate, shared)` pair it passed to the traversal engine, and the fold
passes one fixed pair to all of them. -/
theorem child_fold_trace (cenv : ChildEnv) (pop sh : Bool) :
    ∀ (os : List CycleOracle) (s : ChildSt) (tr : List (Bool × Bool)),
      (child_fold cenv pop sh os (s, tr)).2
        = tr ++ List.replicate os.length (pop, sh) := by
  intro os
  induction os with
  | nil => intro s tr; simp [child_fold]
  | cons o os ih =>
      intro s tr
      rw [show child_fold cenv pop sh (o :: os) (s, tr)
          = child_fold cenv pop sh os
              (stress_mmapfiles_cycle cenv pop sh o s, tr ++ [(pop, sh)])
          from rfl, ih]
      simp [List.replicate_succ]

/-- C6 (amended): the two boolean settings are read once per worker
invocation, before the first cycle (source lines 183-184); every cycle
of that invocation uses the values read at worker start, so a change to
the settings store between cycles is NOT observed by later cycles. -/
theorem C6_settings_read_once (cenv : ChildEnv) (oras : List CycleOracle)
    (st : ChildSt) :
    (stress_mmapfiles_child cenv oras st).2
      = List.replicate oras.length
          ((cenv.settings 0).1, (cenv.settings 0).2) := by
  rw [show stress_mmapfiles_child cenv oras st
      = child_fold cenv (cenv.settings 0).1 (cenv.settings 0).2 oras
          (st, []) from rfl, child_fold_trace]
  simp

/-- C6 (counterexample): in `cenvFlip` the settings store flips the
populate flag to true at the start of cycle 1, yet cycle 1 still runs
with the pair read at worker start — the claimed per-cycle re-read does
not happen. -/
theorem C6_counterexample :
    (stress_mmapfiles_child cenvFlip [ora0, ora0] cst0).2
        = [(false, false), (false, false)] ∧
    (cenvFlip.settings 1).1 = true := by
  constructor
  · decide
  · rfl

/-- C5: the rotation cursor advances by exactly the ghost count of roots
visited in the cycle (at least 1, at most the rotation length, one
advance per root regardless of that root's outcome), wrapping to zero
past the last root (`mod` the rotation length), and the cycle fold hands
the resulting state — cursor included — to the next cycle, which
therefore resumes from that position, also when the cycle was cut short
by an OOM abort. -/
theorem C5_rotation (cenv : ChildEnv) (pop sh : Bool) (ora : CycleOracle)
    (st : ChildSt) (h : st.idx < dirs.length) :
    (stress_mmapfiles_cycle cenv pop sh ora st).idx
        = (st.idx + (cycle_trav cenv pop sh st).2.1) % dirs.length ∧
    0 < (cycle_trav cenv pop sh st).2.1 ∧
    (cycle_trav cenv pop sh st).2.1 ≤ dirs.length ∧
    (∀ (oras : List CycleOracle) (s : ChildSt) (tr : List (Bool × Bool)),
        child_fold cenv pop sh (ora :: oras) (s, tr)
          = child_fold cenv pop sh oras
              (stress_mmapfiles_cycle cenv pop sh ora s,
               tr ++ [(pop, sh)])) := by
  have hct : cycle_trav cenv pop sh st
      = roots_loop cenv pop sh dirs.length st.idx 0
          ⟨st.mappings, 0, st.info, st.bogo, false, []⟩ := rfl
  obtain ⟨k, hvis, hidx, hk, hk0⟩ := roots_loop_idx cenv pop sh dirs.length
    st.idx 0 ⟨st.mappings, 0, st.info, st.bogo, false, []⟩ h
  rw [← hct] at hvis hidx
  refine ⟨?_, ?_, ?_, fun oras s tr => rfl⟩
  · show (cycle_trav cenv pop sh st).1 = _
    rw [hidx, hvis, Nat.zero_add]
  · rw [hvis, Nat.zero_add]
    exact hk0 (by decide)
  · rw [hvis, Nat.zero_add]
    exact hk

/-- Witness for C5 at a concrete child state and environment. -/
theorem C5_witness :
    (stress_mmapfiles_cycle cenvOne false false ora0 cst0).idx
        = (cst0.idx + (cycle_trav cenvOne false false cst0).2.1)
            % dirs.length ∧
    0 < (cycle_trav cenvOne false false cst0).2.1 :=
  ⟨(C5_rotation cenvOne false false ora0 cst0 (by decide)).1,
   (C5_rotation cenvOne false false ora0 cst0 (by decide)).2.1⟩

/-- C4: for a cycle started from an all-clear table, the unmap pass
makes exactly `n` unmap attempts — one per live entry, in table order,
passing each slot's recorded address and length (no leaks, no
double-unmaps) — and after the pass every table slot is null/zero.  The
unmap-result oracle is arbitrary, so a slot is cleared even when its
direct `munmap` fails and the retry helper (whose result the code
discards) is invoked instead. -/
theorem C4_unmap_pass (cenv : ChildEnv) (pop sh : Bool)
    (ora : CycleOracle) (st : ChildSt)
    (hclr : ∀ j, st.mappings j = ⟨none, 0⟩) :
    (cycle_unmap cenv.env ora (cycle_trav cenv pop sh st).2.2).attempts
        = (List.range (cycle_trav cenv pop sh st).2.2.n_mappings).map
            (fun i => (((cycle_trav cenv pop sh st).2.2.mappings i).addr,
                       ((cycle_trav cenv pop sh st).2.2.mappings i).len)) ∧
    (cycle_unmap cenv.env ora
        (cycle_trav cenv pop sh st).2.2).attempts.length
        = (cycle_trav cenv pop sh st).2.2.n_mappings ∧
    (∀ j, (stress_mmapfiles_cycle cenv pop sh ora st).mappings j
        = ⟨none, 0⟩) := by
  have h1 : (cycle_unmap cenv.env ora
      (cycle_trav cenv pop sh st).2.2).attempts
      = (List.range (cycle_trav cenv pop sh st).2.2.n_mappings).map
          (fun i => (((cycle_trav cenv pop sh st).2.2.mappings i).addr,
                     ((cycle_trav cenv pop sh st).2.2.mappings i).len)) := by
    show (munmap_from cenv.env ora 0
        (cycle_trav cenv pop sh st).2.2.n_mappings
        ⟨(cycle_trav cenv pop sh st).2.2.mappings,
         (cycle_trav cenv pop sh st).2.2.info, []⟩).attempts = _
    rw [munmap_from_attempts]
    simp
  refine ⟨h1, by rw [h1]; simp, ?_⟩
  intro j
  show (munmap_from cenv.env ora 0
      (cycle_trav cenv pop sh st).2.2.n_mappings
      ⟨(cycle_trav cenv pop sh st).2.2.mappings,
       (cycle_trav cenv pop sh st).2.2.info, []⟩).mappings j = ⟨none, 0⟩
  rw [munmap_from_mappings]
  by_cases hj : 0 ≤ j ∧ j < 0 + (cycle_trav cenv pop sh st).2.2.n_mappings
  · rw [if_pos hj]
  · rw [if_neg hj]
    have hhigh : ∀ i, (cycle_trav cenv pop sh st).2.2.n_mappings ≤ i →
        (cycle_trav cenv pop sh st).2.2.mappings i = st.mappings i :=
      (travInv_roots_loop cenv pop sh dirs.length st.idx 0
        ⟨st.mappings, 0, st.info, st.bogo, false, []⟩).2.2.2.2.2
    show (cycle_trav cenv pop sh st).2.2.mappings j = _
    rw [hhigh j (by omega)]
    exact hclr j

/-- Witness for C4 at a concrete child state and environment (one
mappable file under `/lib`). -/
theorem C4_witness :
    (cycle_unmap cenvOne.env ora0
        (cycle_trav cenvOne false false cst0).2.2).attempts.length
      = (cycle_trav cenvOne false false cst0).2.2.n_mappings ∧
    (stress_mmapfiles_cycle cenvOne false false ora0 cst0).mappings 0
      = ⟨none, 0⟩ :=
  ⟨(C4_unmap_pass cenvOne false false ora0 cst0 (fun _ => rfl)).2.1,
   (C4_unmap_pass cenvOne false false ora0 cst0 (fun _ => rfl)).2.2 0⟩

/-- C10: the unmap pass computes each per-entry page count with the same
`page_count_expr` the map pass used on the same recorded length, so in a
cycle in which every direct `munmap` succeeds, `munmap_count` grows by
exactly the number of live entries and the cycle's `munmap_page_count`
delta equals the cycle's `mmap_page_count` delta (which the unmap pass
itself leaves untouched). -/
theorem C10_unmap_balance (cenv : ChildEnv) (pop sh : Bool)
    (ora : CycleOracle) (st : ChildSt)
    (hok : ∀ i, ora.munmap_ok i = true) :
    (stress_mmapfiles_cycle cenv pop sh ora st).info.munmap_count
        = st.info.munmap_count
          + ((cycle_trav cenv pop sh st).2.2.n_mappings : ℚ) ∧
    (stress_mmapfiles_cycle cenv pop sh ora st).info.munmap_page_count
        - st.info.munmap_page_count
        = (cycle_trav cenv pop sh st).2.2.info.mmap_page_count
          - st.info.mmap_page_count ∧
    (stress_mmapfiles_cycle cenv pop sh ora st).info.mmap_page_count
        = (cycle_trav cenv pop sh st).2.2.info.mmap_page_count := by
  have hTI := travInv_roots_loop cenv pop sh dirs.length st.idx 0
    ⟨st.mappings, 0, st.info, st.bogo, false, []⟩
  have hbc : (cycle_trav cenv pop sh st).2.2.info.munmap_count
      = st.info.munmap_count := hTI.2.1
  have hbp : (cycle_trav cenv pop sh st).2.2.info.munmap_page_count
      = st.info.munmap_page_count := hTI.2.2.2.1
  have hpd : (cycle_trav cenv pop sh st).2.2.info.mmap_page_count
      - pagesFrom cenv.env (cycle_trav cenv pop sh st).2.2.mappings 0
          (cycle_trav cenv pop sh st).2.2.n_mappings
      = st.info.mmap_page_count - 0 := hTI.2.2.2.2.1
  have h1 : (stress_mmapfiles_cycle cenv pop sh ora st).info.munmap_count
      = (cycle_trav cenv pop sh st).2.2.info.munmap_count
        + ((cycle_trav cenv pop sh st).2.2.n_mappings : ℚ) :=
    (munmap_from_info_ok cenv.env ora hok
      (cycle_trav cenv pop sh st).2.2.n_mappings 0
      ⟨(cycle_trav cenv pop sh st).2.2.mappings,
       (cycle_trav cenv pop sh st).2.2.info, []⟩).1
  have h2 : (stress_mmapfiles_cycle cenv pop sh ora
        st).info.munmap_page_count
      = (cycle_trav cenv pop sh st).2.2.info.munmap_page_count
        + pagesFrom cenv.env (cycle_trav cenv pop sh st).2.2.mappings 0
            (cycle_trav cenv pop sh st).2.2.n_mappings :=
    (munmap_from_info_ok cenv.env ora hok
      (cycle_trav cenv pop sh st).2.2.n_mappings 0
      ⟨(cycle_trav cenv pop sh st).2.2.mappings,
       (cycle_trav cenv pop sh st).2.2.info, []⟩).2
  have h3 : (stress_mmapfiles_cycle cenv pop sh ora st).info.mmap_page_count
      = (cycle_trav cenv pop sh st).2.2.info.mmap_page_count :=
    (munmap_from_mmap_fields cenv.env ora
      (cycle_trav cenv pop sh st).2.2.n_mappings 0
      ⟨(cycle_trav cenv pop sh st).2.2.mappings,
       (cycle_trav cenv pop sh st).2.2.info, []⟩).1
  refine ⟨?_, ?_, h3⟩
  · rw [h1, hbc]
  · rw [h2, hbp]
    linarith [hpd]

/-- Witness for C10 at a concrete child state and environment. -/
theorem C10_witness :
    (stress_mmapfiles_cycle cenvOne false false ora0 cst0).info.munmap_count
        = cst0.info.munmap_count
          + ((cycle_trav cenvOne false false cst0).2.2.n_mappings : ℚ) ∧
    (stress_mmapfiles_cycle cenvOne false false ora0
        cst0).info.mmap_page_count
        = (cycle_trav cenvOne false false cst0).2.2.info.mmap_page_count :=
  ⟨(C10_unmap_balance cenvOne false false ora0 cst0 (fun _ => rfl)).1,
   (C10_unmap_balance cenvOne false false ora0 cst0 (fun _ => rfl)).2.2⟩

end Mmapfiles
